import Mathlib

/-!
Shallow embedding of the moctale repository's playlist/discovery logic.

Sources embedded here:
- `src/src/hooks/useDiscoveryFeed.ts` (mock media API: filtering, search,
  sorting, storage-backed playlist persistence, recommendation scoring);
- the playlist provider in `src/unnamed/part_001` (`addItem`, `moveItem`,
  `hasItem`);
- `src/src/utils/format.ts` (`formatDuration`);
- the types in `src/unnamed/part_009`.

JavaScript arrays become `List`, optional/undefined values become `Option`,
numbers become `Int`/`Nat`, and `Array.prototype.sort` (stable per
ECMA-262) with a `(a, b) => key b - key a` comparator becomes the stable
descending insertion sort `sortDescBy`.  The module-level mutable storage
(localStorage plus the `inMemoryPlaylist` fallback) becomes an explicit
`StorageState` threaded through `getPlaylist`/`savePlaylist`, and
`new Date().toISOString()` becomes an explicit `now : String` argument.
-/

namespace Moctale

/-- `MediaType` from the frontend types (`'movie' | 'music'`). -/
inductive MediaType where
  | movie
  | music
  deriving DecidableEq, Repr

/-- `MediaItem` from the frontend types. -/
structure MediaItem where
  id : String
  type : MediaType
  title : String
  creator : String
  description : String
  releaseYear : Int
  durationMinutes : Int
  popularity : Int
  genres : List String
  moods : List String
  artwork : String
  tags : Option (List String)
  deriving DecidableEq, Repr

/-- `PlaylistItem extends MediaItem` with playlist bookkeeping fields; the
inherited fields live in `media`. -/
structure PlaylistItem where
  media : MediaItem
  playlistItemId : String
  addedAt : String
  note : Option String
  deriving DecidableEq, Repr

/-- `Playlist` (metadata plus items). -/
structure Playlist where
  id : String
  name : String
  description : String
  isPublic : Bool
  coverImage : Option String
  updatedAt : String
  items : List PlaylistItem
  deriving DecidableEq, Repr

/-- `Recommendation` from the frontend types. -/
structure Recommendation where
  id : String
  title : String
  reason : String
  item : MediaItem
  deriving DecidableEq, Repr

/-- `sortBy` values of `MediaFilter` (`'popularity' | 'latest'`). -/
inductive SortOption where
  | popularity
  | latest
  deriving DecidableEq, Repr

/-- `mediaType` selector of `MediaQueryOptions` (`MediaType | 'all'`). -/
inductive MediaTypeSel where
  | movie
  | music
  | all
  deriving DecidableEq, Repr

/-- `MediaQueryOptions`; absent fields are `none`. -/
structure MediaQueryOptions where
  mediaType : Option MediaTypeSel
  genre : Option String
  mood : Option String
  sortBy : Option SortOption
  search : Option String
  limit : Option Int
  deriving DecidableEq, Repr

/-! ### JavaScript primitives -/

/-- `String(value).trim().toLowerCase()` (the `normalize` helper in
`useDiscoveryFeed.ts`). -/
def normalize (value : String) : String := value.trim.toLower

/-- `haystack.includes(needle)` on strings: the needle's characters occur
contiguously in the haystack. -/
def strIncludes (haystack needle : String) : Bool :=
  decide (List.IsInfix needle.data haystack.data)

/-- One insertion step of the stable descending-by-key sort. -/
def insertDescBy (key : α → Int) (x : α) : List α → List α
  | [] => [x]
  | y :: ys => if key x < key y then y :: insertDescBy key x ys else x :: y :: ys

/-- `[...items].sort((a, b) => key(b) - key(a))`: a stable sort placing
larger keys first.  Stable sorts by a fixed key agree, so this insertion
sort models ECMA-262 `Array.prototype.sort`. -/
def sortDescBy (key : α → Int) : List α → List α
  | [] => []
  | x :: xs => insertDescBy key x (sortDescBy key xs)

/-- `Array.prototype.slice(0, endIdx)`: a negative end counts from the end
of the array. -/
def jsSliceTo (l : List α) (endIdx : Int) : List α :=
  let e : Int := if endIdx < 0 then (l.length : Int) + endIdx else endIdx
  l.take e.toNat

/-- Index normalisation of `Array.prototype.splice`: negative starts count
from the end (clamped at 0), large starts clamp to the length. -/
def jsSpliceIdx (len : Nat) (start : Int) : Nat :=
  if start < 0 then ((len : Int) + start).toNat else min start.toNat len

/-! ### Filtering, search and sorting (`useDiscoveryFeed.ts`) -/

/-- The `sortMedia` helper: `'latest'` sorts by descending `releaseYear`,
anything else (including `undefined`) sorts by descending `popularity`. -/
def sortMedia (items : List MediaItem) (sortBy : Option SortOption) : List MediaItem :=
  match sortBy with
  | some SortOption.latest => sortDescBy (fun i => i.releaseYear) items
  | _ => sortDescBy (fun i => i.popularity) items

/-- Genre clause of `applyFilters`: skipped when `genre` is absent or the
empty string (falsy in JS); otherwise the item's normalised genres must
contain the normalised request. -/
def passesGenre (item : MediaItem) (genre : Option String) : Bool :=
  match genre with
  | none => true
  | some g =>
      if g = "" then true
      else (item.genres.map normalize).contains (normalize g)

/-- Mood clause of `applyFilters`, same shape as the genre clause. -/
def passesMood (item : MediaItem) (mood : Option String) : Bool :=
  match mood with
  | none => true
  | some m =>
      if m = "" then true
      else (item.moods.map normalize).contains (normalize m)

/-- `applyFilters`: keep the items passing both the genre and mood clause. -/
def applyFilters (items : List MediaItem) (genre mood : Option String) : List MediaItem :=
  items.filter (fun item => passesGenre item genre && passesMood item mood)

/-- The search haystack of `applySearch`:
`[title, description, creator, ...(tags ?? [])].join(' ').toLowerCase()`. -/
def searchHaystack (item : MediaItem) : String :=
  (String.intercalate " "
    ([item.title, item.description, item.creator] ++ item.tags.getD [])).toLower

/-- `applySearch`: falsy search (absent or empty) keeps everything,
otherwise the haystack must include the normalised search string. -/
def applySearch (items : List MediaItem) (search : Option String) : List MediaItem :=
  match search with
  | none => items
  | some s =>
      if s = "" then items
      else items.filter (fun item => strIncludes (searchHaystack item) (normalize s))

/-- `fetchMedia` over explicit catalogues `movieCatalog`/`musicCatalog`
(their contents live in `src/data/mockData`, which is data, so they are
parameters here): select the pool, filter, search, sort, then apply
`slice(0, limit)` when a limit is supplied. -/
def fetchMedia (movieCatalog musicCatalog : List MediaItem)
    (options : MediaQueryOptions) : List MediaItem :=
  let mediaType := options.mediaType.getD MediaTypeSel.all
  let sortBy := options.sortBy.getD SortOption.popularity
  let items :=
    match mediaType with
    | MediaTypeSel.all => movieCatalog ++ musicCatalog
    | MediaTypeSel.movie => movieCatalog
    | MediaTypeSel.music => musicCatalog
  let filtered := applyFilters items options.genre options.mood
  let searched := applySearch filtered options.search
  let sorted := sortMedia searched (some sortBy)
  match options.limit with
  | some limit => jsSliceTo sorted limit
  | none => sorted

/-! ### Playlist storage (`useDiscoveryFeed.ts`) -/

/-- The storage key's constant id `'discovery-mix'`. -/
def DEFAULT_PLAYLIST_ID : String := "discovery-mix"

/-- `createDefaultPlaylist`, with the `new Date().toISOString()` timestamp
passed in explicitly. -/
def createDefaultPlaylist (now : String) : Playlist :=
  { id := DEFAULT_PLAYLIST_ID
    name := "My Discovery Mix"
    description := "A living playlist that blends the films and tracks you discover here."
    isPublic := false
    coverImage := none
    updatedAt := now
    items := [] }

/-- The module-level storage: either `window.localStorage` under
`STORAGE_KEY` (stored JSON modelled as the parsed playlist itself, `none`
for absent or unparseable) or the `inMemoryPlaylist` fallback, selected by
`isLocalStorageAvailable()`. -/
structure StorageState where
  localStorageAvailable : Bool
  localStore : Option Playlist
  inMemoryPlaylist : Option Playlist
  deriving DecidableEq, Repr

/-- `readFromStorage`. -/
def readFromStorage (s : StorageState) : Option Playlist :=
  if s.localStorageAvailable then s.localStore else s.inMemoryPlaylist

/-- `writeToStorage`. -/
def writeToStorage (playlist : Playlist) (s : StorageState) : StorageState :=
  if s.localStorageAvailable then { s with localStore := some playlist }
  else { s with inMemoryPlaylist := some playlist }

/-- `getPlaylist`: return the stored playlist when its id matches,
otherwise store and return a fresh default playlist. -/
def getPlaylist (id : String) (now : String) (s : StorageState) :
    Playlist × StorageState :=
  let fresh := createDefaultPlaylist now
  match readFromStorage s with
  | some existing =>
      if existing.id = id then (existing, s)
      else (fresh, writeToStorage fresh s)
  | none => (fresh, writeToStorage fresh s)

/-- `savePlaylist`: refresh `updatedAt`, write the payload, return it. -/
def savePlaylist (playlist : Playlist) (now : String) (s : StorageState) :
    Playlist × StorageState :=
  let payload : Playlist := { playlist with updatedAt := now }
  (payload, writeToStorage payload s)

/-! ### Playlist provider (`PlaylistProvider` in `src/unnamed/part_001`)

`setPlaylist` state updates become functions `Option Playlist → Option
Playlist`; generated ids and timestamps are explicit arguments.  After an
out-of-range `moveItem` the JS `items` array can contain `undefined`, so
the provider's playlist is mirrored as `JsPlaylist`, whose item slots are
`Option PlaylistItem` (`none` = `undefined`). -/

/-- A playlist as the provider holds it at runtime: item slots may be
`undefined` after a bad splice. -/
structure JsPlaylist where
  id : String
  name : String
  description : String
  isPublic : Bool
  coverImage : Option String
  updatedAt : String
  items : List (Option PlaylistItem)
  deriving DecidableEq, Repr

/-- A well-formed playlist viewed as a runtime playlist. -/
def Playlist.toJs (p : Playlist) : JsPlaylist :=
  { id := p.id
    name := p.name
    description := p.description
    isPublic := p.isPublic
    coverImage := p.coverImage
    updatedAt := p.updatedAt
    items := p.items.map some }

/-- `addItem`: no-op without a playlist or when an item with the same `id`
and `type` is already present; otherwise append a new `PlaylistItem` and
refresh `updatedAt`. -/
def addItem (previous : Option Playlist) (item : MediaItem)
    (newId now : String) : Option Playlist :=
  match previous with
  | none => none
  | some prev =>
      if prev.items.any
          (fun entry => decide (entry.media.id = item.id ∧ entry.media.type = item.type)) then
        some prev
      else
        some { prev with
               updatedAt := now
               items := prev.items ++
                 [{ media := item, playlistItemId := newId, addedAt := now, note := none }] }

/-- `hasItem`: membership by `id` and `type`. -/
def hasItem (playlist : Option Playlist) (item : MediaItem) : Bool :=
  match playlist with
  | none => false
  | some p =>
      p.items.any (fun entry => decide (entry.media.id = item.id ∧ entry.media.type = item.type))

/-- The splice body of `moveItem`:
`const [moved] = nextItems.splice(startIndex, 1)` followed by
`nextItems.splice(destinationIndex, 0, moved)`.  `moved` is `undefined`
(`none`) when `startIndex` is at or beyond the length. -/
def spliceMoveArray (items : List α) (startIndex destinationIndex : Int) :
    List (Option α) :=
  let s := jsSpliceIdx items.length startIndex
  let moved : Option α := items.get? s
  let rest := items.take s ++ items.drop (s + 1)
  let d := jsSpliceIdx rest.length destinationIndex
  (rest.map some).take d ++ moved :: (rest.map some).drop d

/-- `moveItem`: no-op on a missing playlist; unchanged when
`destinationIndex` is out of `[0, items.length)` or equals `startIndex`;
otherwise splice the item out and back in and refresh `updatedAt`.  Note
the code never bounds-checks `startIndex`. -/
def moveItem (previous : Option Playlist) (startIndex destinationIndex : Int)
    (now : String) : Option JsPlaylist :=
  match previous with
  | none => none
  | some prev =>
      if 0 ≤ destinationIndex ∧ destinationIndex < (prev.items.length : Int) ∧
          startIndex ≠ destinationIndex then
        some { prev.toJs with
               updatedAt := now
               items := spliceMoveArray prev.items startIndex destinationIndex }
      else some prev.toJs

/-! ### Recommendations (`getRecommendations` in `useDiscoveryFeed.ts`) -/

/-- The `movie`/`music` literals of `makeUniqueKey`. -/
def MediaType.toStr : MediaType → String
  | MediaType.movie => "movie"
  | MediaType.music => "music"

/-- `makeUniqueKey`: the template literal `type:id`. -/
def makeUniqueKey (item : MediaItem) : String :=
  item.type.toStr ++ ":" ++ item.id

/-- The lookup value of an association list read as a JS `Map` (first
matching entry; `tally`'s maps never repeat keys). -/
def countOf (acc : List (String × Nat)) (k : String) : Nat :=
  match acc.find? (fun e => e.1 = k) with
  | some e => e.2
  | none => 0

/-- One `acc.set(key, (acc.get(key) ?? 0) + 1)` step: a JS `Map` updates an
existing key in place and appends a new key. -/
def bump (acc : List (String × Nat)) (k : String) : List (String × Nat) :=
  if acc.any (fun e => e.1 = k) then
    acc.map (fun e => if e.1 = k then (e.1, e.2 + 1) else e)
  else acc ++ [(k, 1)]

/-- `tally`: count lower-cased occurrences, preserving insertion order. -/
def tally (items : List String) : List (String × Nat) :=
  items.foldl (fun acc value => bump acc value.toLower) []

/-- `getTopValues`: entries sorted by descending count (stable), first two,
keys only. -/
def getTopValues (counts : List (String × Nat)) : List String :=
  ((sortDescBy (fun e => (e.2 : Int)) counts).take 2).map Prod.fst

/-- `genreLookup`/`moodLookup` construction: lower-cased key to original
casing. -/
def mkLookup (values : List String) : List (String × String) :=
  values.map (fun v => (v.toLower, v))

/-- `Map.get` on a map built from an entry list: the last entry for a
repeated key wins. -/
def lookupGet (entries : List (String × String)) (k : String) : Option String :=
  (entries.reverse.find? (fun e => e.1 = k)).map Prod.snd

/-- The `{ item, score, reason }` records built inside `getRecommendations`. -/
structure ScoredEntry where
  item : MediaItem
  score : Int
  reason : String
  deriving DecidableEq, Repr

/-- All genres of the playlist's items, in order (`flatMap`). -/
def playlistGenres (p : Playlist) : List String :=
  p.items.foldr (fun it acc => it.media.genres ++ acc) []

/-- All moods of the playlist's items, in order (`flatMap`). -/
def playlistMoods (p : Playlist) : List String :=
  p.items.foldr (fun it acc => it.media.moods ++ acc) []

/-- `topGenres` as computed for a non-empty playlist. -/
def topGenresOf (p : Playlist) : List String :=
  getTopValues (tally (playlistGenres p))

/-- `topMoods` as computed for a non-empty playlist. -/
def topMoodsOf (p : Playlist) : List String :=
  getTopValues (tally (playlistMoods p))

/-- `playlist.items.some(entry => entry.type === 'movie')`. -/
def hasMovieIn (p : Playlist) : Bool :=
  p.items.any (fun entry => decide (entry.media.type = MediaType.movie))

/-- `playlist.items.some(entry => entry.type === 'music')`. -/
def hasMusicIn (p : Playlist) : Bool :=
  p.items.any (fun entry => decide (entry.media.type = MediaType.music))

/-- The per-candidate body of the `.map` in `getRecommendations`: a genre
match adds 18, otherwise a mood match adds 12; the variety boost (only
with a non-empty playlist, `boost`) adds 4 for music when the playlist has
a movie and 4 for a movie when the playlist has music.

The source guards are JS truthiness tests — `if (matchingGenre)` and
`if (matchingMood)` on the result of `Array.prototype.find`, which is
`undefined` (`none`) when nothing matches and falsy also for the empty
string.  So a matched empty-string top genre awards no bonus and falls
through to the mood test, and a matched empty-string top mood keeps the
default score and reason (`moodBranch` duplicates the default pair for
exactly that falsy case). -/
def scoreEntry (genreLk moodLk : List (String × String))
    (topGenres topMoods : List String) (boost hasMovie hasMusic : Bool)
    (item : MediaItem) : ScoredEntry :=
  let base : Int := item.popularity
  let lowGenres := item.genres.map String.toLower
  let moodBranch : Int × String :=
    match topMoods.find? (fun mood => (item.moods.map String.toLower).contains mood) with
    | some matchingMood =>
        if matchingMood = "" then (base, "Trending with our community")
        else
          (base + 12,
           "Matches your " ++ ((lookupGet moodLk matchingMood).getD matchingMood).toLower ++
             " mood")
    | none => (base, "Trending with our community")
  let scoreReason : Int × String :=
    match topGenres.find? (fun genre => lowGenres.contains genre) with
    | some matchingGenre =>
        if matchingGenre = "" then moodBranch
        else
          (base + 18,
           "Because you enjoy " ++ ((lookupGet genreLk matchingGenre).getD matchingGenre))
    | none => moodBranch
  let s2 := if boost ∧ hasMovie = true ∧ item.type = MediaType.music
    then scoreReason.1 + 4 else scoreReason.1
  let s3 := if boost ∧ hasMusic = true ∧ item.type = MediaType.movie
    then s2 + 4 else s2
  { item := item, score := s3, reason := scoreReason.2 }

/-- `playlist?.items ?? []`: the playlist's items, empty when absent. -/
def playlistItemsOf : Option Playlist → List PlaylistItem
  | some p => p.items
  | none => []

/-- `getRecommendations` over explicit catalogue and genre/mood data
(`movieCatalog`, `musicCatalog`, `availableMovieGenres`,
`availableMusicGenres`, `availableMoods` live in `src/data/mockData`). -/
def getRecommendations (availableMovieGenres availableMusicGenres availableMoods : List String)
    (movieCatalog musicCatalog : List MediaItem)
    (playlist : Option Playlist) : List Recommendation :=
  let pool := movieCatalog ++ musicCatalog
  let pItems := playlistItemsOf playlist
  let excluded := pItems.map (fun it => makeUniqueKey it.media)
  let nonEmpty : Bool := match playlist with
    | some p => decide (p.items ≠ [])
    | none => false
  let topGenres := match playlist with
    | some p => if p.items ≠ [] then topGenresOf p else []
    | none => []
  let topMoods := match playlist with
    | some p => if p.items ≠ [] then topMoodsOf p else []
    | none => []
  let hasMovie := match playlist with
    | some p => hasMovieIn p
    | none => false
  let hasMusic := match playlist with
    | some p => hasMusicIn p
    | none => false
  let genreLk := mkLookup (availableMovieGenres ++ availableMusicGenres)
  let moodLk := mkLookup availableMoods
  let candidates := pool.filter (fun item => !(excluded.contains (makeUniqueKey item)))
  let scored := sortDescBy (fun e => e.score)
    (candidates.map (scoreEntry genreLk moodLk topGenres topMoods nonEmpty hasMovie hasMusic))
  (scored.take 6).map (fun entry =>
    { id := entry.item.id ++ "-rec"
      title := entry.item.title
      reason := entry.reason
      item := entry.item })

/-! ### `formatDuration` (`src/src/utils/format.ts`) -/

/-- `formatDuration`: `!minutes || minutes <= 0` collapses to `minutes ≤ 0`
on integers; `Math.floor` on a positive quotient is integer division. -/
def formatDuration (minutes : Int) : String :=
  if minutes ≤ 0 then "0 min"
  else
    let hours := minutes / 60
    let remaining := minutes % 60
    if hours = 0 then toString minutes ++ " min"
    else if remaining = 0 then toString hours ++ " hr"
    else toString hours ++ " hr " ++ toString remaining ++ " min"

/-! ### Backend -/

/-- A backend HTTP response: a 200 with a body, or a 404. -/
inductive HttpResponse where
  | ok (body : String)
  | notFound
  deriving DecidableEq, Repr

/-- Modelled from the spec: the FastAPI application (`app/main.py`) is not
under `src/`; only `backend/README.md` is.  Per the spec and the README
the backend is a health-check-only stub: its one endpoint is
`GET /health`, answering the JSON object with single field `status` set to
`"ok"`. -/
def backendHandle (method path : String) : HttpResponse :=
  if method = "GET" ∧ path = "/health" then
    HttpResponse.ok "\x7b\"status\":\"ok\"\x7d"
  else HttpResponse.notFound

/-! ### Example data (used by witnesses and counterexamples) -/

/-- A small concrete movie. -/
def exMovie : MediaItem :=
  { id := "a", type := MediaType.movie, title := "A", creator := "c",
    description := "d", releaseYear := 2001, durationMinutes := 100,
    popularity := 10, genres := ["Drama"], moods := ["Calm"], artwork := "",
    tags := none }

/-- A small concrete music track. -/
def exMusic : MediaItem :=
  { id := "b", type := MediaType.music, title := "B", creator := "c",
    description := "d", releaseYear := 2005, durationMinutes := 4,
    popularity := 50, genres := ["Jazz"], moods := ["Upbeat"], artwork := "",
    tags := none }

/-- The movie wrapped as a playlist item. -/
def exItemA : PlaylistItem :=
  { media := exMovie, playlistItemId := "p1", addedAt := "t0", note := none }

/-- The track wrapped as a playlist item. -/
def exItemB : PlaylistItem :=
  { media := exMusic, playlistItemId := "p2", addedAt := "t0", note := none }

/-- A two-item playlist. -/
def exPlaylist : Playlist :=
  { id := "pl", name := "n", description := "", isPublic := false,
    coverImage := none, updatedAt := "t0", items := [exItemA, exItemB] }

/-! ### Storage lemmas -/

/-- What was just written is what is read back, in either storage mode. -/
theorem readFromStorage_writeToStorage (p : Playlist) (s : StorageState) :
    readFromStorage (writeToStorage p s) = some p := by
  simp only [readFromStorage, writeToStorage]
  by_cases h : s.localStorageAvailable <;> simp [h]

/-! ## Claims -/

/-- C10: `formatDuration` returns `'0 min'` for non-positive minutes,
`'<minutes> min'` below an hour, `'<hours> hr'` on positive multiples of
60, and `'<hours> hr <remaining> min'` otherwise, with
`hours = floor(minutes / 60)` and `remaining = minutes mod 60`. -/
theorem formatDuration_spec (minutes : Int) :
    (minutes ≤ 0 → formatDuration minutes = "0 min")
    ∧ (0 < minutes → minutes < 60 → formatDuration minutes = toString minutes ++ " min")
    ∧ (0 < minutes → minutes % 60 = 0 →
        formatDuration minutes = toString (minutes / 60) ++ " hr")
    ∧ (0 < minutes → 60 ≤ minutes → minutes % 60 ≠ 0 →
        formatDuration minutes =
          toString (minutes / 60) ++ " hr " ++ toString (minutes % 60) ++ " min") := by
  refine ⟨fun h => ?_, fun h1 h2 => ?_, fun h1 h2 => ?_, fun h1 h2 h3 => ?_⟩ <;>
    simp only [formatDuration]
  · rw [if_pos h]
  · rw [if_neg (by omega), if_pos (by omega)]
  · rw [if_neg (by omega), if_neg (by omega), if_pos h2]
  · rw [if_neg (by omega), if_neg (by omega), if_neg h3]

/-- Witness for C10 at minutes −5, 30, 120 and 90. -/
theorem formatDuration_spec_witness :
    formatDuration (-5) = "0 min"
    ∧ formatDuration 30 = toString (30 : Int) ++ " min"
    ∧ formatDuration 120 = toString ((120 : Int) / 60) ++ " hr"
    ∧ formatDuration 90 =
        toString ((90 : Int) / 60) ++ " hr " ++ toString ((90 : Int) % 60) ++ " min" :=
  ⟨(formatDuration_spec (-5)).1 (by decide),
   (formatDuration_spec 30).2.1 (by decide) (by decide),
   (formatDuration_spec 120).2.2.1 (by decide) (by decide),
   (formatDuration_spec 90).2.2.2 (by decide) (by decide) (by decide)⟩

/-- C7: the backend (modelled from the spec, `app/main.py` being absent
from the tree) answers `GET /health` with the status-ok JSON object and
has no other endpoint. -/
theorem backendHandle_spec (method path : String) :
    (method = "GET" ∧ path = "/health" →
        backendHandle method path = HttpResponse.ok "\x7b\"status\":\"ok\"\x7d")
    ∧ (¬(method = "GET" ∧ path = "/health") →
        backendHandle method path = HttpResponse.notFound) := by
  constructor <;> intro h <;> simp only [backendHandle]
  · rw [if_pos h]
  · rw [if_neg h]

/-- Witness for C7 at `GET /health` and `POST /health`. -/
theorem backendHandle_spec_witness :
    backendHandle "GET" "/health" = HttpResponse.ok "\x7b\"status\":\"ok\"\x7d"
    ∧ backendHandle "POST" "/health" = HttpResponse.notFound :=
  ⟨(backendHandle_spec "GET" "/health").1 ⟨rfl, rfl⟩,
   (backendHandle_spec "POST" "/health").2 (by decide)⟩

/-- C3 counterexample: with empty in-memory storage, `getPlaylist` returns
the default playlist, but after `savePlaylist` of a renamed playlist it
returns that saved playlist instead — the result depends on the earlier
`savePlaylist` call, so the API does keep state across calls. -/
theorem getPlaylist_after_save_differs :
    (getPlaylist DEFAULT_PLAYLIST_ID "t1"
        ((savePlaylist { createDefaultPlaylist "t0" with name := "Custom" } "t2"
            { localStorageAvailable := false, localStore := none,
              inMemoryPlaylist := none }).2)).1
      ≠ (getPlaylist DEFAULT_PLAYLIST_ID "t1"
          { localStorageAvailable := false, localStore := none,
            inMemoryPlaylist := none }).1 := by decide

/-- C3 (amended): the mock playlist API does keep state that survives
across calls — `savePlaylist(p)` writes `p` (with refreshed `updatedAt`)
into localStorage or the in-memory fallback, where subsequent reads (and
hence `getPlaylist`) see it. -/
theorem savePlaylist_state_survives (p : Playlist) (now : String) (s : StorageState) :
    readFromStorage ((savePlaylist p now s).2) = some { p with updatedAt := now } := by
  simp only [savePlaylist]
  exact readFromStorage_writeToStorage _ s

/-- C8: saving then fetching by the same id returns the playlist with only
`updatedAt` replaced by the save timestamp, in both storage modes
(`s.localStorageAvailable` is arbitrary). -/
theorem savePlaylist_getPlaylist_roundtrip (p : Playlist) (saveNow getNow : String)
    (s : StorageState) :
    (getPlaylist p.id getNow ((savePlaylist p saveNow s).2)).1
      = { p with updatedAt := saveNow } := by
  simp [getPlaylist, savePlaylist, readFromStorage_writeToStorage]

/-- `addItem` when the duplicate check fires. -/
theorem addItem_of_dup (prev : Playlist) (item : MediaItem) (newId now : String)
    (h : prev.items.any
      (fun entry => decide (entry.media.id = item.id ∧ entry.media.type = item.type)) = true) :
    addItem (some prev) item newId now = some prev := by
  simp only [addItem]
  rw [h]
  simp

/-- `addItem` when the duplicate check does not fire. -/
theorem addItem_of_new (prev : Playlist) (item : MediaItem) (newId now : String)
    (h : prev.items.any
      (fun entry => decide (entry.media.id = item.id ∧ entry.media.type = item.type)) = false) :
    addItem (some prev) item newId now
      = some { prev with
               updatedAt := now
               items := prev.items ++
                 [{ media := item, playlistItemId := newId, addedAt := now, note := none }] } := by
  simp only [addItem]
  rw [h]
  simp

/-- C9: adding an item whose `id`/`type` pair is already in the playlist
returns the state unchanged, and adding the same item twice yields the
same playlist as adding it once. -/
theorem addItem_duplicate_spec (prev : Playlist) (item : MediaItem)
    (id1 t1 id2 t2 : String) :
    ((∃ entry ∈ prev.items, entry.media.id = item.id ∧ entry.media.type = item.type) →
        addItem (some prev) item id1 t1 = some prev)
    ∧ addItem (addItem (some prev) item id1 t1) item id2 t2
        = addItem (some prev) item id1 t1 := by
  constructor
  · intro h
    apply addItem_of_dup
    rcases h with ⟨entry, hmem, h1, h2⟩
    exact List.any_eq_true.mpr ⟨entry, hmem, by simp [h1, h2]⟩
  · cases hany : prev.items.any
        (fun entry => decide (entry.media.id = item.id ∧ entry.media.type = item.type)) with
    | true =>
        rw [addItem_of_dup prev item id1 t1 hany]
        exact addItem_of_dup prev item id2 t2 hany
    | false =>
        rw [addItem_of_new prev item id1 t1 hany]
        apply addItem_of_dup
        simp [List.any_append]

/-- Witness for C9: re-adding the movie already in the example playlist. -/
theorem addItem_duplicate_spec_witness :
    addItem (some exPlaylist) exMovie "i2" "t2" = some exPlaylist
    ∧ addItem (addItem (some exPlaylist) exMovie "i2" "t2") exMovie "i3" "t3"
        = addItem (some exPlaylist) exMovie "i2" "t2" :=
  ⟨(addItem_duplicate_spec exPlaylist exMovie "i2" "t2" "i3" "t3").1 (by decide),
   (addItem_duplicate_spec exPlaylist exMovie "i2" "t2" "i3" "t3").2⟩

/-! ### Splice lemmas for `moveItem` (C4) -/

/-- `insertIdx` within bounds is a take/cons/drop decomposition. -/
theorem insertIdx_eq_take_cons_drop (l : List α) (n : Nat) (x : α) (h : n ≤ l.length) :
    l.insertIdx n x = l.take n ++ x :: l.drop n := by
  induction n generalizing l with
  | zero => simp
  | succ n ih =>
      cases l with
      | nil => simp at h
      | cons a as =>
          simp only [List.insertIdx_succ_cons, List.take_succ_cons, List.drop_succ_cons,
            List.cons_append]
          rw [ih as (by simpa using h)]

/-- In-bounds `insertIdx` permutes to consing the new element. -/
theorem insertIdx_perm (l : List α) (n : Nat) (x : α) (h : n ≤ l.length) :
    (l.insertIdx n x).Perm (x :: l) := by
  rw [insertIdx_eq_take_cons_drop l n x h]
  have hm := @List.perm_middle _ x (l.take n) (l.drop n)
  simpa using hm

/-- Consing the removed element onto `eraseIdx` permutes back to the list. -/
theorem cons_eraseIdx_perm (l : List α) (n : Nat) (x : α) (h : l.get? n = some x) :
    (x :: l.eraseIdx n).Perm l := by
  obtain ⟨hn, hget⟩ := List.get?_eq_some.mp h
  rw [List.eraseIdx_eq_take_drop_succ]
  have hl : l.take n ++ x :: l.drop (n + 1) = l := by
    rw [List.get_eq_getElem] at hget
    rw [← hget, List.getElem_cons_drop, List.take_append_drop]
  have h2 : (x :: (l.take n ++ l.drop (n + 1))).Perm (l.take n ++ x :: l.drop (n + 1)) :=
    List.perm_middle.symm
  rw [hl] at h2
  exact h2

/-- The element inserted in bounds is found at its index. -/
theorem insertIdx_get_self (l : List α) (n : Nat) (x : α) (h : n ≤ l.length) :
    (l.insertIdx n x).get? n = some x := by
  rw [insertIdx_eq_take_cons_drop l n x h]
  have hlen : (l.take n).length = n := by simp [List.length_take]; omega
  rw [List.get?_eq_getElem?, List.getElem?_append_right (by omega)]
  simp [hlen]

/-- The splice pair of `moveItem`, on in-bounds indices, is `eraseIdx`
followed by `insertIdx` (all slots defined). -/
theorem spliceMoveArray_eq (l : List α) (sIdx dIdx : Int) (x : α)
    (hs0 : 0 ≤ sIdx) (hx : l.get? sIdx.toNat = some x)
    (hd0 : 0 ≤ dIdx) (hd1 : dIdx < (l.length : Int)) :
    spliceMoveArray l sIdx dIdx
      = (List.insertIdx dIdx.toNat x (l.eraseIdx sIdx.toNat)).map some := by
  have hs1 : sIdx.toNat < l.length := by
    rcases List.get?_eq_some.mp hx with ⟨hlt, _⟩
    exact hlt
  have hd1n : dIdx.toNat < l.length := by omega
  have herlen : (l.eraseIdx sIdx.toNat).length = l.length - 1 :=
    List.length_eraseIdx_of_lt hs1
  have hjs : jsSpliceIdx l.length sIdx = sIdx.toNat := by
    simp only [jsSpliceIdx]
    rw [if_neg (by omega)]
    omega
  have hjd : jsSpliceIdx (l.eraseIdx sIdx.toNat).length dIdx = dIdx.toNat := by
    simp only [jsSpliceIdx, herlen]
    rw [if_neg (by omega)]
    omega
  have her : l.take sIdx.toNat ++ l.drop (sIdx.toNat + 1) = l.eraseIdx sIdx.toNat :=
    (List.eraseIdx_eq_take_drop_succ ..).symm
  have hdle : dIdx.toNat ≤ (l.eraseIdx sIdx.toNat).length := by omega
  simp only [spliceMoveArray, hjs, her, hjd, hx]
  rw [insertIdx_eq_take_cons_drop _ dIdx.toNat x hdle]
  simp [List.map_take, List.map_drop]

/-- C4 (amended): `moveItem` leaves the playlist unchanged when
`destinationIndex` is out of `[0, count)` or equals `startIndex`;
otherwise, provided `startIndex` is also within bounds (the code never
checks it), the resulting items are the former `startIndex` element
inserted at `destinationIndex` into the remaining items: a permutation of
the old items, with that element at `destinationIndex` and the relative
order of the others (the list with position `destinationIndex` erased)
exactly the old list with position `startIndex` erased. -/
theorem moveItem_spec (prev : Playlist) (sIdx dIdx : Int) (now : String) :
    ((dIdx < 0 ∨ (prev.items.length : Int) ≤ dIdx ∨ sIdx = dIdx) →
        moveItem (some prev) sIdx dIdx now = some prev.toJs)
    ∧ (∀ x, 0 ≤ sIdx → prev.items.get? sIdx.toNat = some x →
        0 ≤ dIdx → dIdx < (prev.items.length : Int) → sIdx ≠ dIdx →
        moveItem (some prev) sIdx dIdx now
          = some { prev.toJs with
                   updatedAt := now
                   items := (List.insertIdx dIdx.toNat x
                     (prev.items.eraseIdx sIdx.toNat)).map some }
        ∧ (List.insertIdx dIdx.toNat x (prev.items.eraseIdx sIdx.toNat)).Perm prev.items
        ∧ (List.insertIdx dIdx.toNat x (prev.items.eraseIdx sIdx.toNat)).get? dIdx.toNat
            = some x
        ∧ (List.insertIdx dIdx.toNat x (prev.items.eraseIdx sIdx.toNat)).eraseIdx dIdx.toNat
            = prev.items.eraseIdx sIdx.toNat) := by
  constructor
  · intro h
    simp only [moveItem]
    rw [if_neg ?_]
    rintro ⟨h1, h2, h3⟩
    rcases h with h | h | h
    · omega
    · omega
    · exact h3 h
  · intro x hs0 hx hd0 hd1 hne
    have hs1 : sIdx.toNat < prev.items.length := by
      rcases List.get?_eq_some.mp hx with ⟨hlt, _⟩
      exact hlt
    have herlen : (prev.items.eraseIdx sIdx.toNat).length = prev.items.length - 1 :=
      List.length_eraseIdx_of_lt hs1
    have hdle : dIdx.toNat ≤ (prev.items.eraseIdx sIdx.toNat).length := by omega
    refine ⟨?_, ?_, ?_, ?_⟩
    · simp only [moveItem]
      rw [if_pos ⟨hd0, hd1, hne⟩, spliceMoveArray_eq prev.items sIdx dIdx x hs0 hx hd0 hd1]
    · exact (insertIdx_perm _ _ _ hdle).trans (cons_eraseIdx_perm _ _ _ hx)
    · exact insertIdx_get_self _ _ _ hdle
    · exact List.eraseIdx_insertIdx dIdx.toNat (prev.items.eraseIdx sIdx.toNat)

/-- Witness for C4 at the example playlist: destination −1 is a no-op, and
moving index 1 to index 0 swaps the two items. -/
theorem moveItem_spec_witness :
    moveItem (some exPlaylist) 0 (-1) "t9" = some exPlaylist.toJs
    ∧ (moveItem (some exPlaylist) 1 0 "t9"
        = some { exPlaylist.toJs with
                 updatedAt := "t9"
                 items := (List.insertIdx 0 exItemB (exPlaylist.items.eraseIdx 1)).map some }
       ∧ (List.insertIdx 0 exItemB (exPlaylist.items.eraseIdx 1)).Perm exPlaylist.items
       ∧ (List.insertIdx 0 exItemB (exPlaylist.items.eraseIdx 1)).get? 0 = some exItemB
       ∧ (List.insertIdx 0 exItemB (exPlaylist.items.eraseIdx 1)).eraseIdx 0
           = exPlaylist.items.eraseIdx 1) :=
  ⟨(moveItem_spec exPlaylist 0 (-1) "t9").1 (Or.inl (by decide)),
   (moveItem_spec exPlaylist 1 0 "t9").2 exItemB (by decide) (by decide) (by decide)
     (by decide) (by decide)⟩

/-- C4 counterexample: `startIndex = 5` is beyond the two-item playlist
while `destinationIndex = 0` passes the (destination-only) bounds check,
so the splice inserts `undefined` and the result is not a permutation of
the previous items. -/
theorem moveItem_oob_counterexample :
    (moveItem (some exPlaylist) 5 0 "t9").map JsPlaylist.items
      = some [none, some exItemA, some exItemB]
    ∧ ¬ ([none, some exItemA, some exItemB].Perm (exPlaylist.items.map some)) := by
  constructor
  · decide
  · intro h
    have hlen := h.length_eq
    simp [exPlaylist] at hlen

/-! ### Sorting lemmas -/

/-- Inserting permutes to consing. -/
theorem insertDescBy_perm (key : α → Int) (x : α) (l : List α) :
    (insertDescBy key x l).Perm (x :: l) := by
  induction l with
  | nil => exact List.Perm.refl _
  | cons y ys ih =>
      simp only [insertDescBy]
      by_cases h : key x < key y
      · rw [if_pos h]
        exact (ih.cons y).trans (List.Perm.swap x y ys)
      · rw [if_neg h]

/-- The descending sort permutes its input. -/
theorem sortDescBy_perm (key : α → Int) (l : List α) : (sortDescBy key l).Perm l := by
  induction l with
  | nil => exact List.Perm.refl _
  | cons x xs ih =>
      simp only [sortDescBy]
      exact (insertDescBy_perm key x _).trans (ih.cons x)

/-- Inserting into a descending list keeps it descending. -/
theorem insertDescBy_pairwise (key : α → Int) (x : α) (l : List α)
    (h : l.Pairwise (fun a b => key b ≤ key a)) :
    (insertDescBy key x l).Pairwise (fun a b => key b ≤ key a) := by
  induction l with
  | nil => simp [insertDescBy]
  | cons y ys ih =>
      rcases List.pairwise_cons.mp h with ⟨hy, hys⟩
      simp only [insertDescBy]
      by_cases hxy : key x < key y
      · rw [if_pos hxy]
        refine List.pairwise_cons.mpr ⟨?_, ih hys⟩
        intro z hz
        rcases List.mem_cons.mp ((insertDescBy_perm key x ys).mem_iff.mp hz) with rfl | hzys
        · exact le_of_lt hxy
        · exact hy z hzys
      · rw [if_neg hxy]
        refine List.pairwise_cons.mpr ⟨?_, h⟩
        intro z hz
        rcases List.mem_cons.mp hz with rfl | hzys
        · exact le_of_not_lt hxy
        · exact le_trans (hy z hzys) (le_of_not_lt hxy)

/-- The descending sort is sorted: keys are non-increasing. -/
theorem sortDescBy_pairwise (key : α → Int) (l : List α) :
    (sortDescBy key l).Pairwise (fun a b => key b ≤ key a) := by
  induction l with
  | nil => simp [sortDescBy]
  | cons x xs ih =>
      simp only [sortDescBy]
      exact insertDescBy_pairwise key x _ ih

/-- `sortMedia` permutes its input for every sort option. -/
theorem sortMedia_perm (items : List MediaItem) (sortBy : Option SortOption) :
    (sortMedia items sortBy).Perm items := by
  cases sortBy with
  | none => exact sortDescBy_perm _ items
  | some s => cases s <;> exact sortDescBy_perm _ items

/-- Query options selecting `latest` sorting, used as witness input. -/
def optsLatest : MediaQueryOptions :=
  { mediaType := none, genre := none, mood := none,
    sortBy := some SortOption.latest, search := none, limit := none }

/-- Query options with limit 1, used as witness and counterexample input. -/
def optsLimitOne : MediaQueryOptions :=
  { mediaType := none, genre := none, mood := none,
    sortBy := none, search := none, limit := some 1 }

/-- Query options with the negative limit −1. -/
def optsLimitNeg : MediaQueryOptions :=
  { mediaType := none, genre := none, mood := none,
    sortBy := none, search := none, limit := some (-1) }

/-- C6 counterexample: with limit −1 the result of `fetchMedia` is the
sorted list minus its last element (JS `slice(0, -1)`), whose length 1 is
not at most the limit −1. -/
theorem fetchMedia_negative_limit_counterexample :
    ¬ (((fetchMedia [exMovie, exMusic] [] optsLimitNeg).length : Int) ≤ -1) := by decide

/-- C6 (amended): `fetchMedia` output is sorted by non-increasing
`releaseYear` for `sortBy = 'latest'` and by non-increasing `popularity`
otherwise (also when `sortBy` is omitted); a non-negative numeric limit
truncates to the first `limit` elements of the sorted list, so the result
length is at most `limit` (a negative limit instead drops trailing
elements, following JS `slice`). -/
theorem fetchMedia_sort_limit_spec (mc mus : List MediaItem) (o : MediaQueryOptions) :
    (o.sortBy = some SortOption.latest →
        (fetchMedia mc mus o).Chain' (fun a b => b.releaseYear ≤ a.releaseYear))
    ∧ (o.sortBy = none ∨ o.sortBy = some SortOption.popularity →
        (fetchMedia mc mus o).Chain' (fun a b => b.popularity ≤ a.popularity))
    ∧ (∀ n : Int, o.limit = some n → 0 ≤ n →
        fetchMedia mc mus o = (fetchMedia mc mus { o with limit := none }).take n.toNat
        ∧ ((fetchMedia mc mus o).length : Int) ≤ n) := by
  have hbase : ∀ key : MediaItem → Int,
      (sortDescBy key (applySearch (applyFilters
          (match o.mediaType.getD MediaTypeSel.all with
            | MediaTypeSel.all => mc ++ mus
            | MediaTypeSel.movie => mc
            | MediaTypeSel.music => mus) o.genre o.mood) o.search)).Pairwise
        (fun a b => key b ≤ key a) := fun key => sortDescBy_pairwise key _
  refine ⟨fun hs => ?_, fun hs => ?_, fun n hn hn0 => ?_⟩
  · simp only [fetchMedia, hs, Option.getD_some, sortMedia]
    cases hl : o.limit with
    | none => exact (hbase _).chain'
    | some limit =>
        exact (((hbase fun i => i.releaseYear).sublist (List.take_sublist _ _))).chain'
  · have hpop : o.sortBy.getD SortOption.popularity = SortOption.popularity := by
      rcases hs with hs | hs <;> simp [hs]
    simp only [fetchMedia, hpop, sortMedia]
    cases hl : o.limit with
    | none => exact (hbase _).chain'
    | some limit =>
        exact (((hbase fun i => i.popularity).sublist (List.take_sublist _ _))).chain'
  · constructor
    · simp only [fetchMedia, hn, jsSliceTo]
      rw [if_neg (by omega)]
    · simp only [fetchMedia, hn, jsSliceTo]
      rw [if_neg (by omega)]
      have := List.length_take_le n.toNat
        (sortMedia (applySearch (applyFilters
          (match o.mediaType.getD MediaTypeSel.all with
            | MediaTypeSel.all => mc ++ mus
            | MediaTypeSel.movie => mc
            | MediaTypeSel.music => mus) o.genre o.mood) o.search)
          (some (o.sortBy.getD SortOption.popularity)))
      omega

/-- Witness for C6: latest-sorting, popularity-sorting and limit-1
truncation on the two-item example catalogue. -/
theorem fetchMedia_sort_limit_witness :
    (fetchMedia [exMovie, exMusic] [] optsLatest).Chain'
        (fun a b => b.releaseYear ≤ a.releaseYear)
    ∧ (fetchMedia [exMovie, exMusic] [] optsLimitOne).Chain'
        (fun a b => b.popularity ≤ a.popularity)
    ∧ (fetchMedia [exMovie, exMusic] [] optsLimitOne
          = (fetchMedia [exMovie, exMusic] [] { optsLimitOne with limit := none }).take
              (1 : Int).toNat
        ∧ ((fetchMedia [exMovie, exMusic] [] optsLimitOne).length : Int) ≤ 1) :=
  ⟨(fetchMedia_sort_limit_spec [exMovie, exMusic] [] optsLatest).1 rfl,
   (fetchMedia_sort_limit_spec [exMovie, exMusic] [] optsLimitOne).2.1 (Or.inl rfl),
   (fetchMedia_sort_limit_spec [exMovie, exMusic] [] optsLimitOne).2.2 1 rfl (by decide)⟩

/-! ### Filter membership lemmas (C5) -/

/-- The genre clause holds exactly when every given, non-empty genre is
matched by some item genre under normalisation. -/
theorem passesGenre_iff (item : MediaItem) (genre : Option String) :
    passesGenre item genre = true
      ↔ (∀ g, genre = some g → g ≠ "" → ∃ ig ∈ item.genres, normalize ig = normalize g) := by
  cases genre with
  | none => simp [passesGenre]
  | some g =>
      by_cases hg : g = ""
      · subst hg
        simp [passesGenre]
      · simp [passesGenre, hg, List.mem_map]

/-- The mood clause, same shape as the genre clause. -/
theorem passesMood_iff (item : MediaItem) (mood : Option String) :
    passesMood item mood = true
      ↔ (∀ m, mood = some m → m ≠ "" → ∃ im ∈ item.moods, normalize im = normalize m) := by
  cases mood with
  | none => simp [passesMood]
  | some m =>
      by_cases hm : m = ""
      · subst hm
        simp [passesMood]
      · simp [passesMood, hm, List.mem_map]

/-- Membership through `applyFilters`. -/
theorem mem_applyFilters (items : List MediaItem) (genre mood : Option String)
    (item : MediaItem) :
    item ∈ applyFilters items genre mood
      ↔ item ∈ items
        ∧ (∀ g, genre = some g → g ≠ "" → ∃ ig ∈ item.genres, normalize ig = normalize g)
        ∧ (∀ m, mood = some m → m ≠ "" → ∃ im ∈ item.moods, normalize im = normalize m) := by
  simp only [applyFilters, List.mem_filter, Bool.and_eq_true, passesGenre_iff, passesMood_iff,
    and_assoc]

/-- Membership through `applySearch`. -/
theorem mem_applySearch (items : List MediaItem) (search : Option String)
    (item : MediaItem) :
    item ∈ applySearch items search
      ↔ item ∈ items
        ∧ (∀ s, search = some s → s ≠ "" →
            strIncludes (searchHaystack item) (normalize s) = true) := by
  cases search with
  | none => simp [applySearch]
  | some s =>
      by_cases hs : s = ""
      · subst hs
        simp [applySearch]
      · simp only [applySearch, if_neg hs, List.mem_filter]
        constructor
        · rintro ⟨hmem, hinc⟩
          exact ⟨hmem, fun s' hss' _ => (Option.some.inj hss') ▸ hinc⟩
        · rintro ⟨hmem, h⟩
          exact ⟨hmem, h s rfl hs⟩

/-- C5 (amended): when no limit is supplied, an item appears in
`fetchMedia`'s result exactly when it is in the selected catalogue, every
given genre filter matches one of its genres under trim-and-lower-case
comparison, likewise for the mood filter, and every given search string
is, trimmed and lower-cased, a substring of the lower-cased
space-concatenation of title, description, creator and tags.  (With a
limit, items beyond the cut satisfy the conditions but are dropped.) -/
theorem fetchMedia_membership_spec (mc mus : List MediaItem) (o : MediaQueryOptions)
    (hlim : o.limit = none) (item : MediaItem) :
    item ∈ fetchMedia mc mus o
      ↔ (item ∈ (match o.mediaType.getD MediaTypeSel.all with
            | MediaTypeSel.all => mc ++ mus
            | MediaTypeSel.movie => mc
            | MediaTypeSel.music => mus)
        ∧ (∀ g, o.genre = some g → g ≠ "" → ∃ ig ∈ item.genres, normalize ig = normalize g)
        ∧ (∀ m, o.mood = some m → m ≠ "" → ∃ im ∈ item.moods, normalize im = normalize m)
        ∧ (∀ s, o.search = some s → s ≠ "" →
            strIncludes (searchHaystack item) (normalize s) = true)) := by
  simp only [fetchMedia, hlim]
  rw [(sortMedia_perm _ _).mem_iff, mem_applySearch, mem_applyFilters]
  tauto

/-- Witness for C5: genre filtering with the normalised query
`' DRAMA '` keeps the drama movie on the example catalogue. -/
theorem fetchMedia_membership_witness :
    exMovie ∈ fetchMedia [exMovie, exMusic] []
        { mediaType := none, genre := some " DRAMA ", mood := none,
          sortBy := none, search := none, limit := none }
      ↔ (exMovie ∈ ([exMovie, exMusic] ++ [])
        ∧ (∀ g, (some " DRAMA " : Option String) = some g → g ≠ "" →
            ∃ ig ∈ exMovie.genres, normalize ig = normalize g)
        ∧ (∀ m, (none : Option String) = some m → m ≠ "" →
            ∃ im ∈ exMovie.moods, normalize im = normalize m)
        ∧ (∀ s, (none : Option String) = some s → s ≠ "" →
            strIncludes (searchHaystack exMovie) (normalize s) = true)) :=
  fetchMedia_membership_spec [exMovie, exMusic] []
    { mediaType := none, genre := some " DRAMA ", mood := none,
      sortBy := none, search := none, limit := none } rfl exMovie

/-- C5 counterexample: with limit 1, the lower-popularity movie satisfies
every filter condition yet is cut off, so the appears-iff-matches claim
fails for queries carrying a limit. -/
theorem fetchMedia_limit_counterexample :
    ¬ (exMovie ∈ fetchMedia [exMovie, exMusic] [] optsLimitOne
        ↔ (exMovie ∈ (match optsLimitOne.mediaType.getD MediaTypeSel.all with
              | MediaTypeSel.all => [exMovie, exMusic] ++ []
              | MediaTypeSel.movie => [exMovie, exMusic]
              | MediaTypeSel.music => [])
          ∧ (∀ g, optsLimitOne.genre = some g → g ≠ "" →
              ∃ ig ∈ exMovie.genres, normalize ig = normalize g)
          ∧ (∀ m, optsLimitOne.mood = some m → m ≠ "" →
              ∃ im ∈ exMovie.moods, normalize im = normalize m)
          ∧ (∀ s, optsLimitOne.search = some s → s ≠ "" →
              strIncludes (searchHaystack exMovie) (normalize s) = true))) := by
  intro h
  have hconds : exMovie ∈ (match optsLimitOne.mediaType.getD MediaTypeSel.all with
        | MediaTypeSel.all => [exMovie, exMusic] ++ []
        | MediaTypeSel.movie => [exMovie, exMusic]
        | MediaTypeSel.music => [])
      ∧ (∀ g, optsLimitOne.genre = some g → g ≠ "" →
          ∃ ig ∈ exMovie.genres, normalize ig = normalize g)
      ∧ (∀ m, optsLimitOne.mood = some m → m ≠ "" →
          ∃ im ∈ exMovie.moods, normalize im = normalize m)
      ∧ (∀ s, optsLimitOne.search = some s → s ≠ "" →
          strIncludes (searchHaystack exMovie) (normalize s) = true) := by
    refine ⟨by decide, ?_, ?_, ?_⟩
    · intro g hg
      simp [optsLimitOne] at hg
    · intro m hm
      simp [optsLimitOne] at hm
    · intro s hs
      simp [optsLimitOne] at hs
  exact absurd (h.mpr hconds) (by decide)

/-! ### Recommendation lemmas (C1, C2) -/

/-- `scoreEntry` scores an item without replacing it. -/
theorem scoreEntry_item (glk mlk : List (String × String))
    (tg tm : List String) (b hm hmu : Bool) (item : MediaItem) :
    (scoreEntry glk mlk tg tm b hm hmu item).item = item := rfl

/-- C2: for every playlist (also `none`), `getRecommendations` returns at
most 6 entries, each recommending a catalogue item that does not share
`id` and `type` with any playlist item. -/
theorem getRecommendations_bounds (amg ams amo : List String) (mc mus : List MediaItem)
    (playlist : Option Playlist) :
    (getRecommendations amg ams amo mc mus playlist).length ≤ 6
    ∧ (∀ r ∈ getRecommendations amg ams amo mc mus playlist,
        r.item ∈ mc ++ mus
        ∧ ∀ entry ∈ playlistItemsOf playlist,
            ¬(entry.media.id = r.item.id ∧ entry.media.type = r.item.type)) := by
  constructor
  · simp only [getRecommendations]
    rw [List.length_map]
    exact List.length_take_le 6 _
  · cases playlist with
    | none =>
        intro r hr
        simp only [getRecommendations] at hr
        rcases List.mem_map.mp hr with ⟨e, hetake, hre⟩
        have hentries := (sortDescBy_perm _ _).mem_iff.mp (List.mem_of_mem_take hetake)
        rcases List.mem_map.mp hentries with ⟨c, hc, hec⟩
        have hitem : r.item = c := by
          rw [← hre, ← hec, scoreEntry_item]
        rcases List.mem_filter.mp hc with ⟨hcpool, _⟩
        refine ⟨hitem ▸ hcpool, ?_⟩
        intro entry hentry _
        exact absurd hentry (List.not_mem_nil entry)
    | some p =>
        intro r hr
        simp only [getRecommendations] at hr
        rcases List.mem_map.mp hr with ⟨e, hetake, hre⟩
        have hentries := (sortDescBy_perm _ _).mem_iff.mp (List.mem_of_mem_take hetake)
        rcases List.mem_map.mp hentries with ⟨c, hc, hec⟩
        have hitem : r.item = c := by
          rw [← hre, ← hec, scoreEntry_item]
        rcases List.mem_filter.mp hc with ⟨hcpool, hcexcl⟩
        refine ⟨hitem ▸ hcpool, ?_⟩
        intro entry hentry hconj
        obtain ⟨hid, hty⟩ := hconj
        have hkey : makeUniqueKey entry.media = makeUniqueKey c := by
          simp [makeUniqueKey, hid, hty, hitem]
        have hnotmem : makeUniqueKey c
            ∉ List.map (fun (it : PlaylistItem) => makeUniqueKey it.media)
                (playlistItemsOf (some p)) := by
          simpa using hcexcl
        exact hnotmem (List.mem_map.mpr ⟨entry, hentry, hkey⟩)

/-- Witness for C2 on a one-movie catalogue with no playlist. -/
theorem getRecommendations_bounds_witness :
    (getRecommendations [] [] [] [exMovie] [] none).length ≤ 6
    ∧ (exMovie ∈ [exMovie] ++ ([] : List MediaItem)
       ∧ ∀ entry ∈ playlistItemsOf (none : Option Playlist),
           ¬(entry.media.id = exMovie.id ∧ entry.media.type = exMovie.type)) :=
  ⟨(getRecommendations_bounds [] [] [] [exMovie] [] none).1,
   (getRecommendations_bounds [] [] [] [exMovie] [] none).2
     ⟨"a-rec", "A", "Trending with our community", exMovie⟩ (by decide)⟩

/-! ### Tally lemmas (C1) -/

/-- One `bump` adds one to the bumped key's count and nothing else. -/
theorem countOf_bump (acc : List (String × Nat)) (k k' : String) :
    countOf (bump acc k) k' = countOf acc k' + (if k' = k then 1 else 0) := by
  by_cases hany : acc.any (fun e => e.1 = k)
  · simp only [bump, if_pos hany]
    have hupd : (fun e => decide (e.1 = k')) ∘
        (fun (e : String × Nat) => if e.1 = k then (e.1, e.2 + 1) else e)
          = fun (e : String × Nat) => decide (e.1 = k') := by
      funext e
      by_cases he : e.1 = k <;> simp [he]
    simp only [countOf, List.find?_map, hupd]
    cases hfind : acc.find? (fun e => decide (e.1 = k')) with
    | none =>
        have hne : k' ≠ k := by
          intro hkk
          subst hkk
          rcases List.any_eq_true.mp hany with ⟨e, he, hek⟩
          have hnone := List.find?_eq_none.mp hfind e he
          simp only [decide_eq_true_eq] at hnone hek
          exact hnone hek
        simp [hne]
    | some e =>
        have he' : e.1 = k' := by simpa using List.find?_some hfind
        by_cases hek : e.1 = k
        · have hkk : k' = k := by rw [← he', hek]
          simp [hkk, hek]
        · have hkk : k' ≠ k := by rw [← he']; exact hek
          simp [hkk, hek]
  · simp only [bump, if_neg hany]
    have hnone : acc.find? (fun e => decide (e.1 = k)) = none := by
      rw [List.find?_eq_none]
      intro e he
      simp only [decide_eq_true_eq]
      intro hek
      exact hany (List.any_eq_true.mpr ⟨e, he, by simpa using hek⟩)
    by_cases hk : k' = k
    · subst hk
      simp only [countOf, List.find?_append, hnone, Option.none_or]
      simp [hnone]
    · simp only [countOf, List.find?_append]
      have h2 : List.find? (fun e => decide (e.1 = k')) [(k, 1)] = none := by
        simp [Ne.symm hk]
      rw [h2]
      cases acc.find? (fun e => decide (e.1 = k')) <;> simp [hk]

/-- `tally` counts exactly the lower-cased occurrences of each key. -/
theorem tally_countOf (l : List String) (k : String) :
    countOf (tally l) k = (l.map String.toLower).count k := by
  suffices h : ∀ acc, countOf (l.foldl (fun a v => bump a v.toLower) acc) k
      = countOf acc k + (l.map String.toLower).count k by
    simpa [tally, countOf] using h []
  induction l with
  | nil => simp [countOf]
  | cons x xs ih =>
      intro acc
      simp only [List.foldl_cons, List.map_cons, ih (bump acc x.toLower), countOf_bump]
      rw [List.count_cons]
      by_cases hk : k = x.toLower
      · simp [hk]
        omega
      · simp [hk]
        exact fun h => hk h.symm

/-- `bump` keeps the keys duplicate-free. -/
theorem bump_keys_nodup (acc : List (String × Nat)) (k : String)
    (h : (acc.map Prod.fst).Nodup) : ((bump acc k).map Prod.fst).Nodup := by
  by_cases hany : acc.any (fun e => e.1 = k)
  · simp only [bump, if_pos hany]
    have hk : (acc.map (fun (e : String × Nat) =>
        if e.1 = k then (e.1, e.2 + 1) else e)).map Prod.fst = acc.map Prod.fst := by
      rw [List.map_map]
      apply List.map_congr_left
      intro e _
      by_cases he : e.1 = k <;> simp [he]
    rw [hk]
    exact h
  · simp only [bump, if_neg hany]
    rw [List.map_append]
    simp only [List.map_cons, List.map_nil]
    rw [List.nodup_append]
    refine ⟨h, List.nodup_singleton k, ?_⟩
    intro a ha hak
    rcases List.mem_map.mp ha with ⟨e, he, hef⟩
    have hak' : a = k := by simpa using hak
    exact hany (List.any_eq_true.mpr ⟨e, he, by simp [hef, hak']⟩)

/-- `tally` never repeats a key. -/
theorem tally_keys_nodup (l : List String) : ((tally l).map Prod.fst).Nodup := by
  suffices h : ∀ acc, (acc.map Prod.fst).Nodup →
      ((l.foldl (fun a v => bump a v.toLower) acc).map Prod.fst).Nodup by
    exact h [] (by simp)
  induction l with
  | nil => exact fun acc h => h
  | cons x xs ih =>
      intro acc hacc
      exact ih (bump acc x.toLower) (bump_keys_nodup acc x.toLower hacc)

/-- With duplicate-free keys, `countOf` reads off an entry's count. -/
theorem countOf_eq_snd (acc : List (String × Nat)) (e : String × Nat)
    (hnd : (acc.map Prod.fst).Nodup) (he : e ∈ acc) : countOf acc e.1 = e.2 := by
  induction acc with
  | nil => cases he
  | cons a as ih =>
      rw [List.map_cons, List.nodup_cons] at hnd
      rcases List.mem_cons.mp he with rfl | hmem
      · simp [countOf]
      · have hne : ¬a.1 = e.1 := by
          intro hEq
          exact hnd.1 (hEq ▸ List.mem_map.mpr ⟨e, hmem, rfl⟩)
        have hstep : List.find? (fun x => decide (x.1 = e.1)) (a :: as)
            = List.find? (fun x => decide (x.1 = e.1)) as :=
          List.find?_cons_of_neg _ (by simpa using hne)
        simp only [countOf, hstep]
        simpa only [countOf] using ih hnd.2 hmem

/-- Cross comparison between a sorted prefix and the corresponding suffix. -/
theorem pairwise_take_drop {R : α → α → Prop} (l : List α) (n : Nat)
    (h : l.Pairwise R) : ∀ a ∈ l.take n, ∀ b ∈ l.drop n, R a b := by
  have h2 : (l.take n ++ l.drop n).Pairwise R := by
    rw [List.take_append_drop]
    exact h
  exact fun a ha b hb => (List.pairwise_append.mp h2).2.2 a ha b hb

/-- `getTopValues` returns (up to) two keys of maximal count: it has
`min 2 n` entries and every key left out counts no more than any key kept. -/
theorem getTopValues_spec (counts : List (String × Nat))
    (hnd : (counts.map Prod.fst).Nodup) :
    (getTopValues counts).length = min 2 counts.length
    ∧ (∀ g ∈ getTopValues counts, ∀ e ∈ counts, e.1 ∉ getTopValues counts →
        e.2 ≤ countOf counts g) := by
  have hperm : (sortDescBy (fun e => (e.2 : Int)) counts).Perm counts :=
    sortDescBy_perm _ _
  constructor
  · simp [getTopValues, List.length_take, hperm.length_eq]
  · intro g hg e he hnotin
    rcases List.mem_map.mp hg with ⟨eg, hgmem, hgfst⟩
    have hesorted : e ∈ sortDescBy (fun e => (e.2 : Int)) counts := hperm.mem_iff.mpr he
    have hedrop : e ∈ (sortDescBy (fun e => (e.2 : Int)) counts).drop 2 := by
      have hsplit : e ∈ (sortDescBy (fun e => (e.2 : Int)) counts).take 2
          ++ (sortDescBy (fun e => (e.2 : Int)) counts).drop 2 := by
        rw [List.take_append_drop]
        exact hesorted
      rcases List.mem_append.mp hsplit with htake | hdrop
      · exact absurd (List.mem_map.mpr ⟨e, htake, rfl⟩) (by simpa [getTopValues] using hnotin)
      · exact hdrop
    have hrel : (e.2 : Int) ≤ (eg.2 : Int) :=
      pairwise_take_drop _ 2 (sortDescBy_pairwise (fun e => (e.2 : Int)) counts)
        eg hgmem e hedrop
    have hegc : eg ∈ counts := hperm.mem_iff.mp (List.mem_of_mem_take hgmem)
    have hcount : countOf counts eg.1 = eg.2 := countOf_eq_snd counts eg hnd hegc
    rw [← hgfst, hcount]
    omega

/-- The score C1 ascribes to a candidate: popularity, plus 18 when one of
the candidate's lower-cased genres is among the top genres, otherwise 12
when one of its lower-cased moods is among the top moods, plus 4 when the
playlist holds a movie and the candidate is music, plus 4 when the
playlist holds music and the candidate is a movie. -/
def specScore (p : Playlist) (item : MediaItem) : Int :=
  item.popularity
  + (if (item.genres.map String.toLower).any (fun g => (topGenresOf p).contains g) then 18
     else if (item.moods.map String.toLower).any (fun m => (topMoodsOf p).contains m) then 12
     else 0)
  + (if hasMovieIn p ∧ item.type = MediaType.music then 4 else 0)
  + (if hasMusicIn p ∧ item.type = MediaType.movie then 4 else 0)

/-- A successful cross-containment `find?` answers the swapped `any`. -/
theorem find?_contains_some (xs ys : List String) (g : String)
    (h : xs.find? (fun a => ys.contains a) = some g) :
    ys.any (fun y => xs.contains y) = true := by
  have hg1 : g ∈ ys := by simpa using List.find?_some h
  have hg2 : g ∈ xs := List.mem_of_find?_eq_some h
  exact List.any_eq_true.mpr ⟨g, hg1, by simpa using hg2⟩

/-- A failed cross-containment `find?` refutes the swapped `any`. -/
theorem find?_contains_none (xs ys : List String)
    (h : xs.find? (fun a => ys.contains a) = none) :
    ys.any (fun y => xs.contains y) = false := by
  rw [List.any_eq_false]
  intro y hy hyx
  have hyx' : y ∈ xs := by simpa using hyx
  exact List.find?_eq_none.mp h y hyx' (by simpa using hy)

/-- The score computed by `scoreEntry` for a non-empty playlist's top
lists equals the score formula of C1, provided the empty string — which
the source's truthiness guards treat as no match — is not among the top
genres or moods. -/
theorem scoreEntry_score (glk mlk : List (String × String)) (p : Playlist)
    (item : MediaItem) (hg : "" ∉ topGenresOf p) (hm : "" ∉ topMoodsOf p) :
    (scoreEntry glk mlk (topGenresOf p) (topMoodsOf p) true (hasMovieIn p) (hasMusicIn p)
        item).score = specScore p item := by
  simp only [scoreEntry, specScore]
  cases hfind : (topGenresOf p).find?
      (fun genre => (item.genres.map String.toLower).contains genre) with
  | some g =>
      have hgne : ¬(g = "") := by
        intro hge
        exact hg (hge ▸ List.mem_of_find?_eq_some hfind)
      have hany := find?_contains_some _ _ g hfind
      rw [hany]
      by_cases h1 : hasMovieIn p = true ∧ item.type = MediaType.music <;>
        by_cases h2 : hasMusicIn p = true ∧ item.type = MediaType.movie <;>
          simp [h1, h2, hgne]
  | none =>
      have hanyg := find?_contains_none _ _ hfind
      rw [hanyg]
      cases hfind2 : (topMoodsOf p).find?
          (fun mood => (item.moods.map String.toLower).contains mood) with
      | some m =>
          have hmne : ¬(m = "") := by
            intro hme
            exact hm (hme ▸ List.mem_of_find?_eq_some hfind2)
          have hanym := find?_contains_some _ _ m hfind2
          rw [hanym]
          by_cases h1 : hasMovieIn p = true ∧ item.type = MediaType.music <;>
            by_cases h2 : hasMusicIn p = true ∧ item.type = MediaType.movie <;>
              simp [h1, h2, hmne]
      | none =>
          have hanym := find?_contains_none _ _ hfind2
          rw [hanym]
          by_cases h1 : hasMovieIn p = true ∧ item.type = MediaType.music <;>
            by_cases h2 : hasMusicIn p = true ∧ item.type = MediaType.movie <;>
              simp [h1, h2]

/-- A one-item playlist holding the example movie. -/
def exPlaylistOne : Playlist := { exPlaylist with items := [exItemA] }

/-- C1 (amended): for a non-empty playlist, `getRecommendations` (i)
tallies genres and moods by counting each lower-cased occurrence across
the playlist's items, (ii) keeps the two most frequent of each (every key
left out counts no more than any kept one), and — provided the empty
string is not among the top genres or moods, since the source's JS
truthiness guards treat an empty-string match as no match — (iii) scores
every candidate by the C1 formula (`specScore`) and (iv) returns
recommendations ordered by non-increasing score. -/
theorem getRecommendations_scoring (amg ams amo : List String) (mc mus : List MediaItem)
    (p : Playlist) (h : p.items ≠ []) :
    (∀ k, countOf (tally (playlistGenres p)) k
        = ((playlistGenres p).map String.toLower).count k)
    ∧ (∀ k, countOf (tally (playlistMoods p)) k
        = ((playlistMoods p).map String.toLower).count k)
    ∧ (topGenresOf p).length = min 2 (tally (playlistGenres p)).length
    ∧ (∀ g ∈ topGenresOf p, ∀ e ∈ tally (playlistGenres p), e.1 ∉ topGenresOf p →
        e.2 ≤ countOf (tally (playlistGenres p)) g)
    ∧ (topMoodsOf p).length = min 2 (tally (playlistMoods p)).length
    ∧ (∀ m ∈ topMoodsOf p, ∀ e ∈ tally (playlistMoods p), e.1 ∉ topMoodsOf p →
        e.2 ≤ countOf (tally (playlistMoods p)) m)
    ∧ ("" ∉ topGenresOf p → "" ∉ topMoodsOf p →
        ∀ item : MediaItem,
          (scoreEntry (mkLookup (amg ++ ams)) (mkLookup amo) (topGenresOf p) (topMoodsOf p)
              true (hasMovieIn p) (hasMusicIn p) item).score = specScore p item)
    ∧ ("" ∉ topGenresOf p → "" ∉ topMoodsOf p →
        (getRecommendations amg ams amo mc mus (some p)).Chain'
          (fun a b => specScore p b.item ≤ specScore p a.item)) := by
  refine ⟨fun k => tally_countOf _ k, fun k => tally_countOf _ k,
    (getTopValues_spec _ (tally_keys_nodup _)).1,
    (getTopValues_spec _ (tally_keys_nodup _)).2,
    (getTopValues_spec _ (tally_keys_nodup _)).1,
    (getTopValues_spec _ (tally_keys_nodup _)).2,
    fun hg hm item => scoreEntry_score _ _ p item hg hm, ?_⟩
  intro hg hm
  simp only [getRecommendations, playlistItemsOf]
  rw [if_pos h, if_pos h, decide_eq_true h]
  set L := sortDescBy (fun e : ScoredEntry => e.score)
    (List.map (scoreEntry (mkLookup (amg ++ ams)) (mkLookup amo) (topGenresOf p)
        (topMoodsOf p) true (hasMovieIn p) (hasMusicIn p))
      (List.filter (fun item =>
        !(List.map (fun it => makeUniqueKey it.media) p.items).contains
          (makeUniqueKey item)) (mc ++ mus))) with hLdef
  have hscore : ∀ e ∈ L, e.score = specScore p e.item := by
    intro e he
    rw [hLdef] at he
    rcases List.mem_map.mp ((sortDescBy_perm _ _).mem_iff.mp he) with ⟨c, _, rfl⟩
    rw [scoreEntry_item]
    exact scoreEntry_score _ _ p c hg hm
  have hsorted : L.Pairwise (fun a b => b.score ≤ a.score) := by
    rw [hLdef]
    exact sortDescBy_pairwise _ _
  have hpair2 : L.Pairwise (fun a b => specScore p b.item ≤ specScore p a.item) :=
    hsorted.imp_of_mem (fun {a b} ha hb hab => by
      rw [← hscore a ha, ← hscore b hb]
      exact hab)
  have htake := hpair2.sublist (List.take_sublist 6 L)
  exact (List.pairwise_map.mpr htake).chain'

/-- Witness for C1 on a one-movie playlist over a two-item catalogue,
discharging the non-empty-top-genre/mood hypotheses concretely. -/
theorem getRecommendations_scoring_witness :
    countOf (tally (playlistGenres exPlaylistOne)) "drama"
        = ((playlistGenres exPlaylistOne).map String.toLower).count "drama"
    ∧ (getRecommendations ["Drama"] [] ["Calm"] [exMovie] [exMusic]
        (some exPlaylistOne)).Chain'
        (fun a b => specScore exPlaylistOne b.item ≤ specScore exPlaylistOne a.item) := by
  have hd : String.toLower "Drama" = "drama" := by
    rw [show String.toLower "Drama" = String.map Char.toLower "Drama" from rfl,
      String.map_eq]
    decide
  have hc : String.toLower "Calm" = "calm" := by
    rw [show String.toLower "Calm" = String.map Char.toLower "Calm" from rfl,
      String.map_eq]
    decide
  constructor
  · exact (getRecommendations_scoring ["Drama"] [] ["Calm"] [exMovie] [exMusic] exPlaylistOne
      (by decide)).1 "drama"
  · refine (getRecommendations_scoring ["Drama"] [] ["Calm"] [exMovie] [exMusic] exPlaylistOne
      (by decide)).2.2.2.2.2.2.2 ?_ ?_
    · simp [topGenresOf, playlistGenres, exPlaylistOne, exPlaylist, exItemA, exMovie, tally,
        bump, getTopValues, sortDescBy, insertDescBy, hd]
    · simp [topMoodsOf, playlistMoods, exPlaylistOne, exPlaylist, exItemA, exMovie, tally,
        bump, getTopValues, sortDescBy, insertDescBy, hc]

/-- A media record carrying an empty-string genre, as used to refute the
original C1 formula. -/
def cxEmptyGenreMedia : MediaItem :=
  { id := "e1", type := MediaType.movie, title := "E1", creator := "c",
    description := "d", releaseYear := 2000, durationMinutes := 90,
    popularity := 0, genres := [""], moods := [], artwork := "", tags := none }

/-- The empty-genre media as a playlist item. -/
def cxEmptyGenreItem : PlaylistItem :=
  { media := cxEmptyGenreMedia, playlistItemId := "q1", addedAt := "t0", note := none }

/-- A playlist whose only item carries the empty-string genre, making
`""` the sole top genre. -/
def cxEmptyGenrePlaylist : Playlist :=
  { id := "qp", name := "q", description := "", isPublic := false,
    coverImage := none, updatedAt := "t0", items := [cxEmptyGenreItem] }

/-- A candidate whose lower-cased genres contain the top genre `""`. -/
def cxEmptyGenreCand : MediaItem :=
  { id := "e2", type := MediaType.movie, title := "E2", creator := "c",
    description := "d", releaseYear := 2001, durationMinutes := 90,
    popularity := 10, genres := [""], moods := [], artwork := "", tags := none }

/-- C1 counterexample: with `""` as the top genre, the candidate's
lower-cased genres contain a top genre, so the claim's formula awards
`popularity + 18 = 28`; the code's `if (matchingGenre)` guard is falsy on
the empty string and awards nothing, scoring `popularity = 10`. -/
theorem getRecommendations_scoring_counterexample :
    ¬ ((scoreEntry (mkLookup ([] ++ [])) (mkLookup [])
          (topGenresOf cxEmptyGenrePlaylist) (topMoodsOf cxEmptyGenrePlaylist) true
          (hasMovieIn cxEmptyGenrePlaylist) (hasMusicIn cxEmptyGenrePlaylist)
          cxEmptyGenreCand).score
        = specScore cxEmptyGenrePlaylist cxEmptyGenreCand) := by
  have h0 : String.toLower "" = "" := by
    rw [show String.toLower "" = String.map Char.toLower "" from rfl, String.map_eq]
    decide
  have htopg : topGenresOf cxEmptyGenrePlaylist = [""] := by
    simp [topGenresOf, playlistGenres, cxEmptyGenrePlaylist, cxEmptyGenreItem,
      cxEmptyGenreMedia, tally, bump, getTopValues, sortDescBy, insertDescBy, h0]
  have htopm : topMoodsOf cxEmptyGenrePlaylist = [] := by
    simp [topMoodsOf, playlistMoods, cxEmptyGenrePlaylist, cxEmptyGenreItem,
      cxEmptyGenreMedia, tally, getTopValues, sortDescBy]
  have hL : (scoreEntry (mkLookup ([] ++ [])) (mkLookup [])
      (topGenresOf cxEmptyGenrePlaylist) (topMoodsOf cxEmptyGenrePlaylist) true
      (hasMovieIn cxEmptyGenrePlaylist) (hasMusicIn cxEmptyGenrePlaylist)
      cxEmptyGenreCand).score = 10 := by
    simp only [scoreEntry]
    rw [htopg, htopm]
    simp [cxEmptyGenreCand, h0, hasMovieIn, hasMusicIn, cxEmptyGenrePlaylist,
      cxEmptyGenreItem, cxEmptyGenreMedia]
  have hR : specScore cxEmptyGenrePlaylist cxEmptyGenreCand = 28 := by
    simp only [specScore]
    rw [htopg, htopm]
    simp [cxEmptyGenreCand, h0, hasMovieIn, hasMusicIn, cxEmptyGenrePlaylist,
      cxEmptyGenreItem, cxEmptyGenreMedia]
  intro h
  rw [hL, hR] at h
  exact absurd h (by decide)

end Moctale
